import Mathlib

/-!
# Inventory backend: shallow embedding

A shallow embedding of the Express backend (`server.js`) of the
inventory-tracking application.  The persisted state is the ordered list of
inventory records stored in `data/inventory.json`; every handler reads the
full list, computes a response, and (for mutations) writes the full list
back.  We model each route handler as a pure function from the request
parameters and the current list to a response paired with the list that is
persisted afterwards (for read-only routes, just the response).

Timestamps (`new Date().toISOString()`) are modelled by threading the
current time as an explicit `now : String` argument.
-/

namespace Inventory

/-- An inventory record as persisted in `data/inventory.json`.  Records are
built by spreading a JSON request body, so the fields that are not enforced
by the create-validation (`category`, `supplier`, `location`) may be absent
and are modelled as `Option`.  `productName` and `sku` are always present and
non-empty on persisted records (the create validation rejects falsy values),
and `quantity`/`price` are always present (checked against `undefined`).
Prices are JSON numbers on which the program never computes, modelled as
`Rat`. -/
structure Item where
  id : Int
  productName : String
  sku : String
  category : Option String
  quantity : Int
  price : Rat
  supplier : Option String
  location : Option String
  lastUpdated : String
deriving DecidableEq, Repr

/-- A JSON request body (`req.body`) for POST and PUT: an arbitrary record in
which every field may be absent.  JavaScript object spread copies exactly the
present fields, so each field is an `Option`. -/
structure ReqBody where
  id : Option Int := none
  productName : Option String := none
  sku : Option String := none
  category : Option String := none
  quantity : Option Int := none
  price : Option Rat := none
  supplier : Option String := none
  location : Option String := none
  lastUpdated : Option String := none
deriving DecidableEq, Repr

/-! ## Parameter parsing (lines 105, 147, 176: `parseInt(req.params.id)`) -/

/-- The value of the leading run of decimal digits of a character list;
`none` when the list does not start with a digit (JavaScript `NaN`). -/
def leadDigits (cs : List Char) : Option Nat :=
  match cs with
  | [] => none
  | c :: _ =>
    if c.isDigit then
      some ((cs.takeWhile Char.isDigit).foldl (fun a d => 10 * a + (d.toNat - 48)) 0)
    else none

/-- JavaScript `parseInt(s)` in base 10: skip leading spaces, accept an
optional sign, then read the leading digit run; `NaN` (modelled as `none`)
when no digits follow.  (The `0x` hexadecimal form is not modelled; no route
is concerned with it.) -/
def parseIntJS (s : String) : Option Int :=
  let cs := s.toList.dropWhile (fun c => c = ' ')
  match cs with
  | '-' :: rest => (leadDigits rest).map (fun n => -(n : Int))
  | '+' :: rest => (leadDigits rest).map (fun n => (n : Int))
  | _ => (leadDigits cs).map (fun n => (n : Int))

/-- The comparison `i.id === parseInt(req.params.id)` (lines 105, 147, 176).
When `parseInt` produced `NaN` the strict equality is false for every
record, so a `none` parse matches nothing. -/
def idMatches (pid : Option Int) (it : Item) : Bool :=
  match pid with
  | some n => it.id == n
  | none => false

/-! ## GET /api/items (lines 74-99) -/

/-- `s.includes(sub)`: `sub` occurs contiguously in `s`. -/
def containsSub (s sub : String) : Bool :=
  s.toList.tails.any (fun t => sub.toList.isPrefixOf t)

/-- `s.toLowerCase()`, character by character (the data of this application
is ASCII, where JavaScript and `Char.toLower` agree). -/
def lowerStr (s : String) : String :=
  ⟨s.data.map Char.toLower⟩

/-- The search filter predicate of lines 82-87, applied to an already
lowercased search term: `productName`, `sku`, `supplier` or `location`
contains the term, where the two optional fields are guarded by truthiness
(`item.supplier && ...`), so an absent field simply does not match. -/
def searchMatch (term : String) (it : Item) : Bool :=
  containsSub (lowerStr it.productName) term ||
  containsSub (lowerStr it.sku) term ||
  (match it.supplier with
   | some s => containsSub (lowerStr s) term
   | none => false) ||
  (match it.location with
   | some l => containsSub (lowerStr l) term
   | none => false)

/-- Lines 80-88: `if (search) { ... items = items.filter(...) }`.  The
guard is a JavaScript truthiness test, so an absent or empty search
parameter leaves the list as it is; otherwise the search term is lowercased
(line 81) and the substring filter applied. -/
def applySearch (search : Option String) (items : List Item) : List Item :=
  match search with
  | some s => if s = "" then items else items.filter (searchMatch (lowerStr s))
  | none => items

/-- Lines 90-92: `if (category) { items = items.filter(...) }`.  The guard
is a JavaScript truthiness test; the filter is the strict string equality
`item.category === category`, which an absent `category` field never
satisfies. -/
def applyCategory (category : Option String) (items : List Item) : List Item :=
  match category with
  | some c => if c = "" then items
              else items.filter (fun it => it.category == some c)
  | none => items

/-- GET `/api/items` (lines 74-99): the search filter, then the category
filter, over the full collection.  The query parameters are `none` when
absent. -/
def listItems (search category : Option String) (items : List Item) : List Item :=
  applyCategory category (applySearch search items)

/-! ## GET /api/items/:id (lines 102-116) -/

inductive GetRes where
  | ok (item : Item)
  | notFound
deriving DecidableEq, Repr

/-- HTTP status of the single-item GET response. -/
def GetRes.status : GetRes → Nat
  | .ok _ => 200
  | .notFound => 404

/-- GET `/api/items/:id` (lines 102-116): `items.find(...)` returns the
first record whose id matches, 404 when there is none.  The route never
writes, so no new state is produced. -/
def getItem (pid : Option Int) (items : List Item) : GetRes :=
  match items.find? (idMatches pid) with
  | some it => .ok it
  | none => .notFound

/-- The full handler, including the `parseInt` of the path segment. -/
def getItemH (idStr : String) (items : List Item) : GetRes :=
  getItem (parseIntJS idStr) items

/-! ## POST /api/items (lines 119-141) -/

inductive CreateRes where
  | created (item : Item)
  | badRequest
deriving DecidableEq, Repr

/-- HTTP status of the create response. -/
def CreateRes.status : CreateRes → Nat
  | .created _ => 201
  | .badRequest => 400

/-- `items.length > 0 ? Math.max(...items.map(i => i.id)) + 1 : 1`
(line 123): one more than the maximum existing id, or 1 for an empty
collection. -/
def freshId : List Item → Int
  | [] => 1
  | it :: rest => (rest.map Item.id).foldl max it.id + 1

/-- POST `/api/items` (lines 119-141).  `newItem` is assembled as
`{ id: <fresh>, ...req.body, lastUpdated: <now> }` (lines 122-126): the
body spread comes after the `id` field, so a body that carries an `id`
overrides the computed fresh id, while `lastUpdated` is written after the
spread and therefore always holds the server time.  The validation of
line 129 rejects a falsy `productName`/`sku` (absent or empty) and an
`undefined` `quantity`/`price`, answering 400 before anything is pushed or
written; otherwise the new record is appended and the list persisted. -/
def createItem (now : String) (body : ReqBody) (items : List Item) :
    CreateRes × List Item :=
  match body.productName, body.sku, body.quantity, body.price with
  | some pn, some sk, some q, some pr =>
    if pn = "" ∨ sk = "" then (.badRequest, items)
    else
      let newItem : Item :=
        { id := (body.id).getD (freshId items)
          productName := pn
          sku := sk
          category := body.category
          quantity := q
          price := pr
          supplier := body.supplier
          location := body.location
          lastUpdated := now }
      (.created newItem, items ++ [newItem])
  | _, _, _, _ => (.badRequest, items)

/-! ## PUT /api/items/:id (lines 144-168) -/

inductive UpdRes where
  | ok (item : Item)
  | notFound
deriving DecidableEq, Repr

/-- HTTP status of the update response. -/
def UpdRes.status : UpdRes → Nat
  | .ok _ => 200
  | .notFound => 404

/-- The merged record of lines 153-158:
`{ ...items[index], ...req.body, id: items[index].id, lastUpdated: <now> }`.
Each field present in the body overwrites the stored one; the `id` field is
written again after the body spread ("Ensure ID remains the same"), so a
body-supplied id is discarded, and `lastUpdated` likewise always holds the
server time. -/
def mergeItem (old : Item) (body : ReqBody) (now : String) : Item :=
  { id := old.id
    productName := (body.productName).getD old.productName
    sku := (body.sku).getD old.sku
    category := match body.category with
                | some c => some c
                | none => old.category
    quantity := (body.quantity).getD old.quantity
    price := (body.price).getD old.price
    supplier := match body.supplier with
                | some s => some s
                | none => old.supplier
    location := match body.location with
                | some l => some l
                | none => old.location
    lastUpdated := now }

/-- PUT `/api/items/:id` (lines 144-168): `findIndex` locates the first
record whose id matches; 404 (with nothing written) when there is none;
otherwise the slot is overwritten with the merged record, the list is
persisted and the merged record returned.  The recursion replaces the first
match and leaves everything else in place, exactly the effect of
`items[index] = updatedItem` at the `findIndex` position. -/
def updateItem (pid : Option Int) (body : ReqBody) (now : String) :
    List Item → UpdRes × List Item
  | [] => (.notFound, [])
  | it :: rest =>
    if idMatches pid it then
      let u := mergeItem it body now
      (.ok u, u :: rest)
    else
      match updateItem pid body now rest with
      | (.ok u, rest2) => (.ok u, it :: rest2)
      | (.notFound, _) => (.notFound, it :: rest)

/-- The full handler, including the `parseInt` of the path segment. -/
def updateItemH (idStr : String) (body : ReqBody) (now : String)
    (items : List Item) : UpdRes × List Item :=
  updateItem (parseIntJS idStr) body now items

/-! ## DELETE /api/items/:id (lines 171-188) -/

inductive DelRes where
  | noContent
  | notFound
deriving DecidableEq, Repr

/-- HTTP status of the delete response. -/
def DelRes.status : DelRes → Nat
  | .noContent => 204
  | .notFound => 404

/-- DELETE `/api/items/:id` (lines 171-188): every record whose id matches
the parsed path id is filtered out; if the length did not change the
response is 404 and nothing is written, otherwise the filtered list is
persisted with a 204 response. -/
def deleteItem (pid : Option Int) (items : List Item) : DelRes × List Item :=
  let remaining := items.filter (fun it => !(idMatches pid it))
  if remaining.length = items.length then (.notFound, items)
  else (.noContent, remaining)

/-- The full handler, including the `parseInt` of the path segment. -/
def deleteItemH (idStr : String) (items : List Item) : DelRes × List Item :=
  deleteItem (parseIntJS idStr) items

/-! ## Seed data (lines 22-56) -/

/-- The seed collection written on first run. -/
def initialData : List Item :=
  [ { id := 1, productName := "Laptop", sku := "LP001",
      category := some "Electronics", quantity := 15, price := 999.99,
      supplier := some "Tech Corp", location := some "Warehouse A",
      lastUpdated := "2023-10-28T10:30:00Z" },
    { id := 2, productName := "Desk Chair", sku := "DC001",
      category := some "Office", quantity := 8, price := 149.99,
      supplier := some "Furniture Plus", location := some "Warehouse B",
      lastUpdated := "2023-10-27T14:45:00Z" },
    { id := 3, productName := "Wireless Mouse", sku := "WM001",
      category := some "Electronics", quantity := 3, price := 29.99,
      supplier := some "Tech Corp", location := some "Warehouse A",
      lastUpdated := "2023-10-29T09:15:00Z" } ]

/-! ## Sequences of creates -/

/-- Run a sequence of create requests, each with its own timestamp, against
a starting collection, threading the persisted state (a failed create
persists nothing and the state is unchanged). -/
def runCreates : List (String × ReqBody) → List Item → List Item
  | [], items => items
  | (now, b) :: ops, items => runCreates ops (createItem now b items).2

/-! ## The List specification as §4.1 words it -/

/-- Modelled from the spec (§4.1 List): an item is a search hit when
`productName`, `sku`, `supplier`, or `location` contains the search term as
a case-insensitive substring; absent optional fields are treated as
non-matching; an absent search parameter retains everything. -/
def specSearchHit (search : Option String) (it : Item) : Bool :=
  match search with
  | none => true
  | some s =>
      containsSub (lowerStr it.productName) (lowerStr s) ||
      containsSub (lowerStr it.sku) (lowerStr s) ||
      (match it.supplier with
       | some sup => containsSub (lowerStr sup) (lowerStr s)
       | none => false) ||
      (match it.location with
       | some loc => containsSub (lowerStr loc) (lowerStr s)
       | none => false)

/-- Modelled from the spec (§4.1 List): an item is a category hit when its
category is a case-sensitive exact match; an item without a category never
matches; an absent category parameter retains everything. -/
def specCategoryHit (category : Option String) (it : Item) : Bool :=
  match category with
  | none => true
  | some c => it.category == some c

/-- Modelled from the spec (§4.1 List): retain exactly the items matching
both filters, in storage order. -/
def specListFilter (search category : Option String) (items : List Item) :
    List Item :=
  items.filter (fun it => specSearchHit search it && specCategoryHit category it)

/-! ## Helper lemmas -/

theorem le_foldl_max (l : List Int) (a b : Int) (h : b ≤ a) :
    b ≤ l.foldl max a := by
  induction l generalizing a with
  | nil => exact h
  | cons c cs ih => exact ih (max a c) (le_trans h (le_max_left a c))

theorem mem_le_foldl_max (l : List Int) (a x : Int) (hx : x ∈ l) :
    x ≤ l.foldl max a := by
  induction l generalizing a with
  | nil => cases hx
  | cons c cs ih =>
    rcases List.mem_cons.1 hx with h | h
    · subst h
      exact le_foldl_max cs (max a x) x (le_max_right a x)
    · exact ih (max a c) h

/-- Every id in the collection is strictly below the fresh id of line 123. -/
theorem id_lt_freshId (items : List Item) (x : Item) (hx : x ∈ items) :
    x.id < freshId items := by
  cases items with
  | nil => cases hx
  | cons it rest =>
    have hle : x.id ≤ (rest.map Item.id).foldl max it.id := by
      rcases List.mem_cons.1 hx with h | h
      · subst h
        exact le_foldl_max _ _ _ le_rfl
      · exact mem_le_foldl_max _ _ _ (List.mem_map_of_mem Item.id h)
    calc x.id ≤ (rest.map Item.id).foldl max it.id := hle
      _ < (rest.map Item.id).foldl max it.id + 1 := lt_add_one _
      _ = freshId (it :: rest) := rfl

/-- Characterization of a successful create: the persisted list is the old
list with the new record appended, the record carries the server timestamp,
and its id is the body id when one was supplied, the fresh id otherwise. -/
theorem createItem_created {now : String} {b : ReqBody} {items : List Item}
    {r : Item} {s : List Item}
    (h : createItem now b items = (.created r, s)) :
    s = items ++ [r] ∧ r.lastUpdated = now ∧ r.id = (b.id).getD (freshId items) := by
  unfold createItem at h
  rcases b with ⟨bid, bpn, bsk, bcat, bq, bp, bsup, bloc, blu⟩
  cases bpn <;> cases bsk <;> cases bq <;> cases bp <;> simp_all
  split at h
  · cases h
  · obtain ⟨h1, h2⟩ := Prod.mk.injEq .. ▸ h
    cases h1
    exact ⟨h2.symm, rfl, rfl⟩

/-- A rejected create persists nothing: the state component is the input
collection. -/
theorem createItem_badRequest {now : String} {b : ReqBody} {items : List Item}
    {s : List Item} (h : createItem now b items = (.badRequest, s)) :
    s = items := by
  unfold createItem at h
  rcases b with ⟨bid, bpn, bsk, bcat, bq, bp, bsup, bloc, blu⟩
  cases bpn <;> cases bsk <;> cases bq <;> cases bp <;> simp_all
  split at h
  · exact ((Prod.mk.injEq .. ▸ h).2).symm
  · cases h

/-- `updateItem` at the first matching position: everything before the first
match is kept, the match is replaced by the merged record, everything after
is kept (including later records with the same id). -/
theorem updateItem_app (pid : Option Int) (body : ReqBody) (now : String)
    (l1 : List Item) (a : Item) (l2 : List Item)
    (h1 : ∀ x ∈ l1, idMatches pid x = false) (ha : idMatches pid a = true) :
    updateItem pid body now (l1 ++ a :: l2)
      = (.ok (mergeItem a body now), l1 ++ mergeItem a body now :: l2) := by
  induction l1 with
  | nil => simp [updateItem, ha]
  | cons y ys ih =>
    have hy : idMatches pid y = false := h1 y (List.mem_cons_self y ys)
    have hrec := ih (fun x hx => h1 x (List.mem_cons_of_mem y hx))
    simp [updateItem, hy, hrec]

/-- An update that answers 404 leaves the collection untouched. -/
theorem updateItem_notFound_state (pid : Option Int) (body : ReqBody)
    (now : String) :
    ∀ items s, updateItem pid body now items = (.notFound, s) → s = items := by
  intro items
  induction items with
  | nil =>
    intro s h
    exact ((Prod.mk.injEq .. ▸ h).2).symm
  | cons it rest ih =>
    intro s h
    unfold updateItem at h
    by_cases hm : idMatches pid it
    · rw [if_pos hm] at h
      cases (Prod.mk.injEq .. ▸ h).1
    · rw [if_neg hm] at h
      rcases hrec : updateItem pid body now rest with ⟨res, rest2⟩
      rw [hrec] at h
      cases res with
      | ok u => cases (Prod.mk.injEq .. ▸ h).1
      | notFound => exact ((Prod.mk.injEq .. ▸ h).2).symm

/-- When no record matches, the update answers 404 with the collection
untouched. -/
theorem updateItem_notFound (pid : Option Int) (body : ReqBody) (now : String)
    (items : List Item) (h : ∀ x ∈ items, idMatches pid x = false) :
    updateItem pid body now items = (.notFound, items) := by
  induction items with
  | nil => rfl
  | cons it rest ih =>
    have hit : idMatches pid it = false := h it (List.mem_cons_self it rest)
    have hrec := ih (fun x hx => h x (List.mem_cons_of_mem it hx))
    simp [updateItem, hit, hrec]

/-- A successful update touched exactly one slot: the collection decomposes
around the first match, and the persisted list carries the merged record in
that slot with everything else unchanged. -/
theorem updateItem_ok_decomp (pid : Option Int) (body : ReqBody) (now : String) :
    ∀ items u s, updateItem pid body now items = (.ok u, s) →
      ∃ l1 a l2, items = l1 ++ a :: l2 ∧ s = l1 ++ u :: l2
        ∧ u = mergeItem a body now := by
  intro items
  induction items with
  | nil =>
    intro u s h
    cases (Prod.mk.injEq .. ▸ h).1
  | cons it rest ih =>
    intro u s h
    unfold updateItem at h
    by_cases hm : idMatches pid it
    · rw [if_pos hm] at h
      obtain ⟨h1, h2⟩ := Prod.mk.injEq .. ▸ h
      cases h1
      exact ⟨[], it, rest, rfl, h2.symm, rfl⟩
    · rw [if_neg hm] at h
      rcases hrec : updateItem pid body now rest with ⟨res, rest2⟩
      rw [hrec] at h
      cases res with
      | ok u2 =>
        obtain ⟨h1, h2⟩ := Prod.mk.injEq .. ▸ h
        cases h1
        obtain ⟨l1, a, l2, hrest, hrest2, hu⟩ := ih u rest2 hrec
        exact ⟨it :: l1, a, l2, by rw [hrest]; rfl,
          by rw [← h2, hrest2]; rfl, hu⟩
      | notFound => cases (Prod.mk.injEq .. ▸ h).1

/-- `find?` over a list split at the first match. -/
theorem find?_append_first {p : Item → Bool} (l1 : List Item) (a : Item)
    (l2 : List Item) (h1 : ∀ x ∈ l1, p x = false) (ha : p a = true) :
    (l1 ++ a :: l2).find? p = some a := by
  induction l1 with
  | nil => simp [List.find?_cons_of_pos, ha]
  | cons y ys ih =>
    have hy : p y = false := h1 y (List.mem_cons_self y ys)
    have hrec := ih (fun x hx => h1 x (List.mem_cons_of_mem y hx))
    rw [List.cons_append, List.find?_cons_of_neg _ (by simp [hy])]
    exact hrec

/-- Unfolding of `deleteItem` with its local binding inlined. -/
theorem deleteItem_eq (pid : Option Int) (items : List Item) :
    deleteItem pid items =
      if (items.filter (fun it => !idMatches pid it)).length = items.length
      then (.notFound, items)
      else (.noContent, items.filter (fun it => !idMatches pid it)) := rfl

/-- A delete that answers 404 leaves the collection untouched. -/
theorem deleteItem_notFound_state (pid : Option Int) (items s : List Item)
    (h : deleteItem pid items = (.notFound, s)) : s = items := by
  rw [deleteItem_eq] at h
  split at h
  · exact ((Prod.mk.injEq .. ▸ h).2).symm
  · cases (Prod.mk.injEq .. ▸ h).1

/-- The empty search term is a substring of every string; with it, the
search filter of lines 82-87 retains every record (its `productName` test
already succeeds). -/
theorem containsSub_empty (s : String) : containsSub s "" = true := by
  unfold containsSub
  cases hl : s.toList with
  | nil => rfl
  | cons c cs =>
    rw [List.tails_cons]
    simp

/-- One successful or failed create preserves id uniqueness, provided the
request body does not smuggle in its own id. -/
theorem create_step_nodup (now : String) (b : ReqBody) (items : List Item)
    (hb : b.id = none) (hn : (items.map Item.id).Nodup) :
    (((createItem now b items).2).map Item.id).Nodup := by
  rcases hres : createItem now b items with ⟨res, st⟩
  cases res with
  | badRequest =>
    have := createItem_badRequest hres
    simpa [this] using hn
  | created r =>
    obtain ⟨hs, _, hid⟩ := createItem_created hres
    rw [hb] at hid
    subst hs
    simp only [List.map_append, List.map_cons, List.map_nil]
    rw [List.nodup_append]
    refine ⟨hn, List.nodup_singleton _, ?_⟩
    intro x hx hmem
    have hlt : x < freshId items := by
      obtain ⟨y, hy, hyx⟩ := List.mem_map.1 hx
      exact hyx ▸ id_lt_freshId items y hy
    have hxr : x = r.id := by
      rcases List.mem_singleton.1 hmem with h
      exact h
    rw [hxr, hid] at hlt
    exact lt_irrefl _ hlt

/-! ## Claims -/

/-- C1 counterexample.  The claim says the id of a created record is never
taken from the request body and equals 1 on an empty collection; but the
body spread of line 124 comes after the `id` field of line 123, so a
client-supplied id overrides the Store-assigned one: on an empty collection
a body carrying `id: 999` is accepted and the created, persisted record has
id 999, not 1. -/
theorem create_client_id_overrides_cex :
    createItem "T1"
        { id := some 999, productName := some "Widget", sku := some "W1",
          quantity := some 5, price := some 10 } []
      = (.created (⟨999, "Widget", "W1", none, 5, 10, none, none, "T1"⟩ : Item),
         [(⟨999, "Widget", "W1", none, 5, 10, none, none, "T1"⟩ : Item)])
    ∧ (999 : Int) ≠ 1 := by
  exact ⟨by decide, by decide⟩

/-- C1 (amended): when the request body carries no `id` field, the id of
the created record is assigned by the Store and equals
(max existing id) + 1 on a non-empty collection, or 1 on an empty one (so
after deleting the max-id item the freed id is reused); a body-supplied
`id`, however, overrides the Store-assigned one. -/
theorem create_fresh_id_when_body_has_no_id
    (now : String) (b : ReqBody) (items : List Item) (r : Item)
    (s : List Item) (hb : b.id = none)
    (h : createItem now b items = (.created r, s)) :
    r.id = freshId items ∧ (items = [] → r.id = 1)
      ∧ ∀ x ∈ items, x.id < r.id := by
  obtain ⟨_, _, hid⟩ := createItem_created h
  rw [hb] at hid
  refine ⟨hid, ?_, ?_⟩
  · intro he
    subst he
    exact hid
  · intro x hx
    rw [hid]
    exact id_lt_freshId items x hx

/-- C1 witness: the spec scenario — create `Widget` on an empty collection
(it gets id 1), delete id 1, create `Gadget` with an id-free body: its id is
again the fresh id of the emptied collection, i.e. 1 is reused. -/
theorem create_fresh_id_when_body_has_no_id_wit :
    (⟨1, "Gadget", "G1", none, 2, 4, none, none, "T2"⟩ : Item).id
      = freshId (deleteItem (some 1)
          [(⟨1, "Widget", "W1", none, 5, 10, none, none, "T1"⟩ : Item)]).2 :=
  (create_fresh_id_when_body_has_no_id "T2"
    { productName := some "Gadget", sku := some "G1", quantity := some 2,
      price := some 4 }
    (deleteItem (some 1)
      [(⟨1, "Widget", "W1", none, 5, 10, none, none, "T1"⟩ : Item)]).2
    (⟨1, "Gadget", "G1", none, 2, 4, none, none, "T2"⟩ : Item)
    [(⟨1, "Gadget", "G1", none, 2, 4, none, none, "T2"⟩ : Item)]
    rfl (by decide)).1

/-- C2 counterexample.  Two successful creates (no deletes in between) whose
bodies both carry `id: 5` leave the persisted collection with two records of
the same id: the body spread of line 124 lets a client-supplied id defeat
uniqueness. -/
theorem create_duplicate_ids_cex :
    ((createItem "T1"
        { id := some 5, productName := some "A", sku := some "A1",
          quantity := some 1, price := some 1 } []).1).status = 201
    ∧ ((createItem "T2"
        { id := some 5, productName := some "B", sku := some "B1",
          quantity := some 1, price := some 1 }
        (createItem "T1"
          { id := some 5, productName := some "A", sku := some "A1",
            quantity := some 1, price := some 1 } []).2).1).status = 201
    ∧ ((createItem "T2"
        { id := some 5, productName := some "B", sku := some "B1",
          quantity := some 1, price := some 1 }
        (createItem "T1"
          { id := some 5, productName := some "A", sku := some "A1",
            quantity := some 1, price := some 1 } []).2).2).map Item.id
          = [5, 5]
    ∧ ¬ (([5, 5] : List Int).Nodup) := by
  refine ⟨by decide, by decide, by decide, by decide⟩

/-- C2 (amended): across any sequence of create operations whose request
bodies carry no `id` field (no interleaved deletes), id uniqueness of the
persisted collection is preserved, so the resulting ids are pairwise
distinct; a body-supplied `id` can break this. -/
theorem runCreates_preserves_id_nodup
    (ops : List (String × ReqBody)) (items : List Item)
    (hops : ∀ p ∈ ops, (p.2).id = none)
    (hn : (items.map Item.id).Nodup) :
    ((runCreates ops items).map Item.id).Nodup := by
  induction ops generalizing items with
  | nil => exact hn
  | cons op ops2 ih =>
    rcases op with ⟨now, b⟩
    have hb : b.id = none := hops (now, b) (List.mem_cons_self _ _)
    have hstep := create_step_nodup now b items hb hn
    exact ih _ (fun p hp => hops p (List.mem_cons_of_mem _ hp)) hstep

/-- C2 witness: two id-free creates on the empty collection keep the
persisted ids pairwise distinct. -/
theorem runCreates_preserves_id_nodup_wit :
    ((runCreates
        [("T1", { productName := some "A", sku := some "A1",
                  quantity := some 1, price := some 1 }),
         ("T2", { productName := some "B", sku := some "B1",
                  quantity := some 1, price := some 1 })]
        []).map Item.id).Nodup :=
  runCreates_preserves_id_nodup _ [] (by decide) (by decide)

/-- C3: a successful update of an existing item produces exactly the
shallow-merge of the body over the stored record (`mergeItem`), keeps the
stored id even when the body carries a different one, stamps `lastUpdated`
with the server time, persists the merged record in place of the old one,
and returns that same merged record. -/
theorem update_shallow_merge_pins_id
    (l1 l2 : List Item) (a : Item) (n : Int) (body : ReqBody) (now : String)
    (h1 : ∀ x ∈ l1, x.id ≠ n) (ha : a.id = n) :
    updateItem (some n) body now (l1 ++ a :: l2)
      = (.ok (mergeItem a body now), l1 ++ mergeItem a body now :: l2)
    ∧ (mergeItem a body now).id = a.id
    ∧ (mergeItem a body now).lastUpdated = now := by
  refine ⟨updateItem_app _ _ _ _ _ _ ?_ ?_, rfl, rfl⟩
  · intro x hx
    simp [idMatches, h1 x hx]
  · simp [idMatches, ha]

/-- C3 witness: updating item 1 with a body that tries to set `id: 42`
yields the merged record with id still 1 and the fresh timestamp, persisted
in place. -/
theorem update_shallow_merge_pins_id_wit :
    updateItem (some 1) { id := some 42, productName := some "Z" } "T9"
        ([(⟨2, "C", "C1", none, 1, 2, none, none, "T0"⟩ : Item)]
          ++ (⟨1, "A", "A1", none, 1, 2, none, none, "T0"⟩ : Item)
          :: [(⟨1, "B", "B1", none, 1, 2, none, none, "T0"⟩ : Item)])
      = (.ok (mergeItem (⟨1, "A", "A1", none, 1, 2, none, none, "T0"⟩ : Item)
                { id := some 42, productName := some "Z" } "T9"),
         [(⟨2, "C", "C1", none, 1, 2, none, none, "T0"⟩ : Item)]
          ++ mergeItem (⟨1, "A", "A1", none, 1, 2, none, none, "T0"⟩ : Item)
              { id := some 42, productName := some "Z" } "T9"
          :: [(⟨1, "B", "B1", none, 1, 2, none, none, "T0"⟩ : Item)]) :=
  (update_shallow_merge_pins_id
    [(⟨2, "C", "C1", none, 1, 2, none, none, "T0"⟩ : Item)]
    [(⟨1, "B", "B1", none, 1, 2, none, none, "T0"⟩ : Item)]
    (⟨1, "A", "A1", none, 1, 2, none, none, "T0"⟩ : Item) 1
    { id := some 42, productName := some "Z" } "T9"
    (by decide) rfl).1

/-- C4: a create whose body lacks any of `productName`, `sku`, `quantity`
or `price` is rejected with HTTP 400 and nothing is appended: the persisted
collection is returned unchanged (line 129 answers before the push of
line 133). -/
theorem create_missing_field_rejected
    (now : String) (b : ReqBody) (items : List Item)
    (hmiss : b.productName = none ∨ b.sku = none ∨ b.quantity = none
      ∨ b.price = none) :
    createItem now b items = (.badRequest, items)
    ∧ (createItem now b items).1.status = 400 := by
  rcases b with ⟨bid, bpn, bsk, bcat, bq, bp, bsup, bloc, blu⟩
  cases bpn <;> cases bsk <;> cases bq <;> cases bp <;>
    simp_all [createItem, CreateRes.status]

/-- C4 witness: a body missing `price` is rejected with 400 and the
collection is unchanged. -/
theorem create_missing_field_rejected_wit :
    createItem "T1"
        { productName := some "W", sku := some "S", quantity := some 1 } []
      = (.badRequest, [])
    ∧ (createItem "T1"
        { productName := some "W", sku := some "S", quantity := some 1 }
        []).1.status = 400 :=
  create_missing_field_rejected "T1" _ [] (Or.inr (Or.inr (Or.inr rfl)))

/-- The code's search filter predicate (after lowercasing the term on
line 81) is exactly the spec's search predicate. -/
theorem search_filters_eq (s : String) (it : Item) :
    searchMatch (lowerStr s) it = specSearchHit (some s) it := rfl

/-- With the empty search term, the spec's search predicate also retains
every record (the `productName` substring test succeeds vacuously), which
is why the truthiness guard of line 80 loses nothing. -/
theorem specSearchHit_empty (it : Item) : specSearchHit (some "") it = true := by
  simp only [specSearchHit]
  rw [show lowerStr "" = "" from rfl, containsSub_empty]
  simp

theorem applySearch_none (items : List Item) :
    applySearch none items = items := rfl

theorem applySearch_empty (items : List Item) :
    applySearch (some "") items = items := by
  simp [applySearch]

theorem applySearch_some (s : String) (items : List Item) (hs : s ≠ "") :
    applySearch (some s) items = items.filter (searchMatch (lowerStr s)) := by
  simp [applySearch, hs]

theorem applyCategory_none (items : List Item) :
    applyCategory none items = items := rfl

theorem applyCategory_some (c : String) (items : List Item) (hc : c ≠ "") :
    applyCategory (some c) items
      = items.filter (fun it => it.category == some c) := by
  simp [applyCategory, hc]

/-- C5: when the category parameter is not the empty string (JavaScript
truthiness makes an empty parameter behave exactly like an absent one), the
List operation returns precisely the items retained by the spec's
predicates — the case-insensitive substring search over `productName`,
`sku`, `supplier` and `location` (absent optional fields non-matching),
then the case-sensitive exact category match — in storage order, the empty
result being the empty list rather than an error.  No hypothesis is needed
on the search parameter: an empty search term matches every record, so the
truthiness guard agrees with the spec there. -/
theorem list_filter_spec (search category : Option String) (items : List Item)
    (hc : category ≠ some "") :
    listItems search category items = specListFilter search category items := by
  unfold listItems specListFilter
  cases category with
  | none =>
    rw [applyCategory_none]
    cases search with
    | none =>
      rw [applySearch_none]
      symm
      apply List.filter_eq_self.mpr
      intro x _
      simp [specSearchHit, specCategoryHit]
    | some s =>
      by_cases hs : s = ""
      · subst hs
        rw [applySearch_empty]
        symm
        apply List.filter_eq_self.mpr
        intro x _
        simp [specSearchHit_empty, specCategoryHit]
      · rw [applySearch_some s items hs]
        apply List.filter_congr
        intro x _
        rw [search_filters_eq]
        simp [specCategoryHit]
  | some c =>
    have hcne : c ≠ "" := fun h => hc (by rw [h])
    cases search with
    | none =>
      rw [applySearch_none, applyCategory_some c items hcne]
      apply List.filter_congr
      intro x _
      simp [specSearchHit, specCategoryHit]
    | some s =>
      by_cases hs : s = ""
      · subst hs
        rw [applySearch_empty, applyCategory_some c items hcne]
        apply List.filter_congr
        intro x _
        simp [specSearchHit_empty, specCategoryHit]
      · rw [applySearch_some s items hs,
          applyCategory_some c (items.filter (searchMatch (lowerStr s))) hcne,
          List.filter_filter]
        apply List.filter_congr
        intro x _
        rw [search_filters_eq]
        simp [specCategoryHit, Bool.and_comm]

/-- C5 witness: on the seed collection, the case-insensitive search
`"MOUSE"` with no category filter returns exactly what the spec's filter
retains. -/
theorem list_filter_spec_wit :
    listItems (some "MOUSE") none initialData
      = specListFilter (some "MOUSE") none initialData :=
  list_filter_spec (some "MOUSE") none initialData (by simp)

/-- C6: when the path id segment does not parse as a number
(`parseInt` yields `NaN`), Get, Update and Delete all behave as a failed
lookup: 404 responses and, for the mutators, the collection untouched —
there is no distinct parse error. -/
theorem non_numeric_id_not_found (idStr : String) (body : ReqBody)
    (now : String) (items : List Item) (hp : parseIntJS idStr = none) :
    getItemH idStr items = .notFound
    ∧ (getItemH idStr items).status = 404
    ∧ updateItemH idStr body now items = (.notFound, items)
    ∧ deleteItemH idStr items = (.notFound, items) := by
  unfold getItemH updateItemH deleteItemH
  rw [hp]
  have hfind : items.find? (idMatches none) = none :=
    List.find?_eq_none.mpr (fun x _ => by simp [idMatches])
  have hfilter : items.filter (fun it => !idMatches none it) = items :=
    List.filter_eq_self.mpr (fun x _ => by simp [idMatches])
  refine ⟨?_, ?_, ?_, ?_⟩
  · simp [getItem, hfind]
  · simp [getItem, hfind, GetRes.status]
  · exact updateItem_notFound none body now items (fun x _ => rfl)
  · rw [deleteItem_eq, hfilter, if_pos rfl]

/-- C6 witness: the non-numeric path segment `"abc"` produces 404 on all
three id-addressed routes and leaves the collection untouched. -/
theorem non_numeric_id_not_found_wit :
    getItemH "abc" [(⟨1, "W", "W1", none, 5, 10, none, none, "T1"⟩ : Item)]
        = .notFound
    ∧ (getItemH "abc"
        [(⟨1, "W", "W1", none, 5, 10, none, none, "T1"⟩ : Item)]).status = 404
    ∧ updateItemH "abc" { productName := some "Z" } "T2"
        [(⟨1, "W", "W1", none, 5, 10, none, none, "T1"⟩ : Item)]
      = (.notFound, [(⟨1, "W", "W1", none, 5, 10, none, none, "T1"⟩ : Item)])
    ∧ deleteItemH "abc"
        [(⟨1, "W", "W1", none, 5, 10, none, none, "T1"⟩ : Item)]
      = (.notFound, [(⟨1, "W", "W1", none, 5, 10, none, none, "T1"⟩ : Item)]) :=
  non_numeric_id_not_found "abc" { productName := some "Z" } "T2"
    [(⟨1, "W", "W1", none, 5, 10, none, none, "T1"⟩ : Item)] (by decide)

/-- C7: `lastUpdated` is server-assigned on every successful create and
update regardless of what the body carries (the timestamp is written after
the body spread on lines 125 and 157); a successful update rewrites exactly
the matched slot, leaving every other record untouched; a delete's
persisted list is a sublist of the old one (surviving records unchanged);
and the read-only List and Get return records of the stored collection
without modification — they never write. -/
theorem lastUpdated_frame :
    (∀ now b items r s, createItem now b items = (.created r, s)
        → r.lastUpdated = now)
    ∧ (∀ pid b now items u s, updateItem pid b now items = (.ok u, s)
        → u.lastUpdated = now
          ∧ ∃ l1 a l2, items = l1 ++ a :: l2 ∧ s = l1 ++ u :: l2)
    ∧ (∀ pid items, ((deleteItem pid items).2).Sublist items)
    ∧ (∀ search category items, (listItems search category items).Sublist items)
    ∧ (∀ pid items it, getItem pid items = .ok it → it ∈ items) := by
  refine ⟨?_, ?_, ?_, ?_, ?_⟩
  · intro now b items r s h
    exact (createItem_created h).2.1
  · intro pid b now items u s h
    obtain ⟨l1, a, l2, h1, h2, h3⟩ := updateItem_ok_decomp pid b now items u s h
    exact ⟨by rw [h3]; rfl, l1, a, l2, h1, h2⟩
  · intro pid items
    rw [deleteItem_eq]
    split
    · exact List.Sublist.refl _
    · exact List.filter_sublist _
  · intro search category items
    have hs1 : (applySearch search items).Sublist items := by
      cases search with
      | none =>
        rw [applySearch_none]
      | some s =>
        by_cases hs : s = ""
        · rw [hs, applySearch_empty]
        · rw [applySearch_some s items hs]
          exact List.filter_sublist _
    have hs2 : (applyCategory category (applySearch search items)).Sublist
        (applySearch search items) := by
      cases category with
      | none =>
        rw [applyCategory_none]
      | some c =>
        by_cases hcc : c = ""
        · rw [hcc]
          simp [applyCategory]
        · rw [applyCategory_some c _ hcc]
          exact List.filter_sublist _
    exact hs2.trans hs1
  · intro pid items it h
    unfold getItem at h
    rcases hf : items.find? (idMatches pid) with _ | x
    · rw [hf] at h
      cases h
    · rw [hf] at h
      cases h
      exact List.mem_of_find?_eq_some hf

/-- C7 witness: a create whose body smuggles in a `lastUpdated` still gets
the server timestamp, and a delete's persisted list is a sublist of the old
collection. -/
theorem lastUpdated_frame_wit :
    (⟨1, "W", "W1", none, 5, 10, none, none, "T1"⟩ : Item).lastUpdated = "T1"
    ∧ ((deleteItem (some 1)
        [(⟨1, "W", "W1", none, 5, 10, none, none, "T9"⟩ : Item)]).2).Sublist
        [(⟨1, "W", "W1", none, 5, 10, none, none, "T9"⟩ : Item)] :=
  ⟨lastUpdated_frame.1 "T1"
      { productName := some "W", sku := some "W1", quantity := some 5,
        price := some 10, lastUpdated := some "1999-01-01T00:00:00Z" } []
      (⟨1, "W", "W1", none, 5, 10, none, none, "T1"⟩ : Item)
      [(⟨1, "W", "W1", none, 5, 10, none, none, "T1"⟩ : Item)] (by decide),
   lastUpdated_frame.2.2.1 (some 1)
      [(⟨1, "W", "W1", none, 5, 10, none, none, "T9"⟩ : Item)]⟩

/-- C8: every mutating operation that fails with a 400 or 404 response
persists nothing: the collection after a rejected create, a not-found
update, or a not-found delete is exactly the collection before it (contents
and hence length unchanged). -/
theorem failed_mutation_preserves_state :
    (∀ now b items s, createItem now b items = (.badRequest, s) → s = items)
    ∧ (∀ pid b now items s,
        updateItem pid b now items = (.notFound, s) → s = items)
    ∧ (∀ pid items s, deleteItem pid items = (.notFound, s) → s = items) :=
  ⟨fun _ _ _ _ h => createItem_badRequest h,
   fun pid b now items s h => updateItem_notFound_state pid b now items s h,
   fun pid items s h => deleteItem_notFound_state pid items s h⟩

/-- C8 witness: a create missing its `price` and a delete of the absent id
9 both leave the one-record collection exactly as it was. -/
theorem failed_mutation_preserves_state_wit :
    ([(⟨1, "W", "W1", none, 5, 10, none, none, "T1"⟩ : Item)]
      = [(⟨1, "W", "W1", none, 5, 10, none, none, "T1"⟩ : Item)])
    ∧ ([(⟨2, "V", "V1", none, 5, 10, none, none, "T1"⟩ : Item)]
      = [(⟨2, "V", "V1", none, 5, 10, none, none, "T1"⟩ : Item)]) :=
  ⟨failed_mutation_preserves_state.1 "T2"
      { productName := some "Z", sku := some "Z1", quantity := some 1 }
      [(⟨1, "W", "W1", none, 5, 10, none, none, "T1"⟩ : Item)]
      [(⟨1, "W", "W1", none, 5, 10, none, none, "T1"⟩ : Item)] (by decide),
   failed_mutation_preserves_state.2.2 (some 9)
      [(⟨2, "V", "V1", none, 5, 10, none, none, "T1"⟩ : Item)]
      [(⟨2, "V", "V1", none, 5, 10, none, none, "T1"⟩ : Item)] (by decide)⟩

/-- C9 counterexample.  A body accepted by Create may carry an `id`
colliding with an existing record (line 124's spread); the created record
is appended, but the immediate Get of the returned id finds the older
record first (line 105's `find`), which differs from the created one in
every client-settable field. -/
theorem create_get_roundtrip_cex :
    createItem "T2"
        { id := some 1, productName := some "Gadget", sku := some "G1",
          quantity := some 2, price := some 4 }
        [(⟨1, "Widget", "W1", none, 5, 10, none, none, "T1"⟩ : Item)]
      = (.created (⟨1, "Gadget", "G1", none, 2, 4, none, none, "T2"⟩ : Item),
         [(⟨1, "Widget", "W1", none, 5, 10, none, none, "T1"⟩ : Item),
          (⟨1, "Gadget", "G1", none, 2, 4, none, none, "T2"⟩ : Item)])
    ∧ getItem (some 1)
        [(⟨1, "Widget", "W1", none, 5, 10, none, none, "T1"⟩ : Item),
         (⟨1, "Gadget", "G1", none, 2, 4, none, none, "T2"⟩ : Item)]
      = .ok (⟨1, "Widget", "W1", none, 5, 10, none, none, "T1"⟩ : Item)
    ∧ (⟨1, "Widget", "W1", none, 5, 10, none, none, "T1"⟩ : Item)
      ≠ (⟨1, "Gadget", "G1", none, 2, 4, none, none, "T2"⟩ : Item) :=
  ⟨by decide, by decide, by decide⟩

/-- C9 (amended): for every input record accepted by Create whose body
carries no `id` field, the immediate Get of the returned id (no interleaved
mutation) returns a record equal to the created one in all fields. -/
theorem create_get_roundtrip_no_client_id
    (now : String) (b : ReqBody) (items : List Item) (r : Item)
    (s : List Item) (hb : b.id = none)
    (h : createItem now b items = (.created r, s)) :
    getItem (some r.id) s = .ok r := by
  obtain ⟨hs, _, hid⟩ := createItem_created h
  rw [hb, Option.getD_none] at hid
  subst hs
  have hfind : (items ++ r :: []).find? (idMatches (some r.id)) = some r := by
    apply find?_append_first
    · intro x hx
      have hlt := id_lt_freshId items x hx
      rw [← hid] at hlt
      simp [idMatches]
      exact ne_of_lt hlt
    · simp [idMatches]
  simp [getItem, hfind]

/-- C9 witness: an id-free create on a collection whose max id is 7 yields
the record with id 8, and the immediate Get of id 8 returns exactly that
record. -/
theorem create_get_roundtrip_no_client_id_wit :
    getItem (some (⟨8, "New", "N1", none, 1, 2, none, none, "T2"⟩ : Item).id)
        [(⟨7, "Old", "O1", none, 3, 4, none, none, "T1"⟩ : Item),
         (⟨8, "New", "N1", none, 1, 2, none, none, "T2"⟩ : Item)]
      = .ok (⟨8, "New", "N1", none, 1, 2, none, none, "T2"⟩ : Item) :=
  create_get_roundtrip_no_client_id "T2"
    { productName := some "New", sku := some "N1", quantity := some 1,
      price := some 2 }
    [(⟨7, "Old", "O1", none, 3, 4, none, none, "T1"⟩ : Item)]
    (⟨8, "New", "N1", none, 1, 2, none, none, "T2"⟩ : Item)
    [(⟨7, "Old", "O1", none, 3, 4, none, none, "T1"⟩ : Item),
     (⟨8, "New", "N1", none, 1, 2, none, none, "T2"⟩ : Item)]
    rfl (by decide)

/-- C10: when the collection holds several records with the same id, Get
returns the first one in storage order, Update replaces exactly the first
one (later duplicates untouched), and Delete removes every record with that
id in the one operation. -/
theorem duplicate_id_first_match_semantics
    (l1 l2 : List Item) (a : Item) (n : Int) (body : ReqBody) (now : String)
    (h1 : ∀ x ∈ l1, x.id ≠ n) (ha : a.id = n) :
    getItem (some n) (l1 ++ a :: l2) = .ok a
    ∧ updateItem (some n) body now (l1 ++ a :: l2)
        = (.ok (mergeItem a body now), l1 ++ mergeItem a body now :: l2)
    ∧ deleteItem (some n) (l1 ++ a :: l2)
        = (.noContent, l1 ++ l2.filter (fun x => !(x.id == n))) := by
  have hid1 : ∀ x ∈ l1, idMatches (some n) x = false := by
    intro x hx
    simp [idMatches, h1 x hx]
  have hida : idMatches (some n) a = true := by
    simp [idMatches, ha]
  refine ⟨?_, updateItem_app _ _ _ _ _ _ hid1 hida, ?_⟩
  · simp [getItem, find?_append_first l1 a l2 hid1 hida]
  · rw [deleteItem_eq]
    have hfl1 : l1.filter (fun it => !idMatches (some n) it) = l1 :=
      List.filter_eq_self.mpr (fun x hx => by simp [hid1 x hx])
    have hlen : ((l1 ++ a :: l2).filter
        (fun it => !idMatches (some n) it)).length
        ≠ (l1 ++ a :: l2).length := by
      rw [List.filter_append, hfl1, List.filter_cons_of_neg (by simp [hida])]
      simp only [List.length_append, List.length_cons]
      have := List.length_filter_le (fun it => !idMatches (some n) it) l2
      omega
    rw [if_neg hlen, List.filter_append, hfl1,
      List.filter_cons_of_neg (by simp [hida])]
    rfl

/-- C10 witness: with records of ids 6, 7, 7 in storage order, Get returns
the first id-7 record, Update merges into that first record only, and
Delete removes both id-7 records at once. -/
theorem duplicate_id_first_match_semantics_wit :
    getItem (some 7)
        ([(⟨6, "P", "P1", none, 1, 2, none, none, "T0"⟩ : Item)]
          ++ (⟨7, "Q", "Q1", none, 1, 2, none, none, "T0"⟩ : Item)
          :: [(⟨7, "R", "R1", none, 1, 2, none, none, "T0"⟩ : Item)])
      = .ok (⟨7, "Q", "Q1", none, 1, 2, none, none, "T0"⟩ : Item)
    ∧ updateItem (some 7) { quantity := some 9 } "T3"
        ([(⟨6, "P", "P1", none, 1, 2, none, none, "T0"⟩ : Item)]
          ++ (⟨7, "Q", "Q1", none, 1, 2, none, none, "T0"⟩ : Item)
          :: [(⟨7, "R", "R1", none, 1, 2, none, none, "T0"⟩ : Item)])
      = (.ok (mergeItem (⟨7, "Q", "Q1", none, 1, 2, none, none, "T0"⟩ : Item)
                { quantity := some 9 } "T3"),
         [(⟨6, "P", "P1", none, 1, 2, none, none, "T0"⟩ : Item)]
          ++ mergeItem (⟨7, "Q", "Q1", none, 1, 2, none, none, "T0"⟩ : Item)
              { quantity := some 9 } "T3"
          :: [(⟨7, "R", "R1", none, 1, 2, none, none, "T0"⟩ : Item)])
    ∧ deleteItem (some 7)
        ([(⟨6, "P", "P1", none, 1, 2, none, none, "T0"⟩ : Item)]
          ++ (⟨7, "Q", "Q1", none, 1, 2, none, none, "T0"⟩ : Item)
          :: [(⟨7, "R", "R1", none, 1, 2, none, none, "T0"⟩ : Item)])
      = (.noContent,
         [(⟨6, "P", "P1", none, 1, 2, none, none, "T0"⟩ : Item)]
          ++ [(⟨7, "R", "R1", none, 1, 2, none, none, "T0"⟩ : Item)].filter
              (fun x => !(x.id == 7))) :=
  duplicate_id_first_match_semantics
    [(⟨6, "P", "P1", none, 1, 2, none, none, "T0"⟩ : Item)]
    [(⟨7, "R", "R1", none, 1, 2, none, none, "T0"⟩ : Item)]
    (⟨7, "Q", "Q1", none, 1, 2, none, none, "T0"⟩ : Item) 7
    { quantity := some 9 } "T3" (by decide) rfl

end Inventory
